import Mathlib

/-!
Verification development for the twitterweb crawl backend.

The Go sources are embedded shallowly: the Firestore document tree for one
Job is a `JobStore` (the `RootHandle` document plus the association list of
its `FetchedHandle` children, keyed by the child's Twitter ID, mirroring the
`FetchedHandle` collection keyed by document ID); the Twitter client is an
oracle `TwitterAPI`; `runTick` is translated branch for branch from
`runTick` in the Go worker.  Strings that the Go code slices by byte are
modelled as their character sequences (`List Char`).
-/

namespace Twitterweb

/-- GephiNode mirrors the Go struct `GephiNode`: one account's profile
snapshot plus its raw friend/follower ID lists. -/
structure GephiNode where
  TwitterID : String
  ScreenName : String
  Relationship : String
  FriendsCount : Int
  FollowersCount : Int
  FriendIDs : List String
  FollowerIDs : List String
  Done : Bool
  ProfileURL : String
  Description : List Char
  ProfileImageURL : String
deriving DecidableEq

/-- RootHandle mirrors the Go struct `RootHandle`: one crawl Job. -/
structure RootHandle where
  LoginID : String
  Node : GephiNode
  FollowersCursor : Int
  FriendsCursor : Int
  Status : String
  Remaining : Int
  PrepareGraph : Bool
deriving DecidableEq

/-- FetchedHandle mirrors the Go struct `FetchedHandle`: one ChildTask. -/
structure FetchedHandle where
  ParentID : String
  Node : GephiNode
deriving DecidableEq

/-- TwitterUser models the fields of `twitter.User` that the program reads. -/
structure TwitterUser where
  IDStr : String
  ScreenName : String
  FriendsCount : Int
  FollowersCount : Int
  URL : String
  Description : List Char
  ProfileImageURL : String
  ProfileImageURLHttps : String
deriving DecidableEq

/-- ErrorDetail models one entry of `twitter.APIError.Errors`. -/
structure ErrorDetail where
  Code : Int
  Message : String
deriving DecidableEq

/-- APIError models `twitter.APIError`. -/
structure APIError where
  Errors : List ErrorDetail
deriving DecidableEq

/-- LookupErr is the error type of an upstream user lookup: either a typed
`twitter.APIError` or any other error value (the failed type assertion
branch of `permanentErrorMessage`). -/
inductive LookupErr where
  | api (e : APIError)
  | other (msg : String)
deriving DecidableEq

/-- permanentErrorMessage mirrors `permanentErrorMessage` in twitter.go:
error code 63 is a suspended account, 50 a deleted one; anything else
(including a non-APIError) yields the empty string. -/
def permanentErrorMessage : LookupErr → String
  | .api e =>
    match e.Errors with
    | [] => ""
    | d :: _ => if d.Code = 63 then "SUSPENDED" else if d.Code = 50 then "NOT FOUND" else ""
  | .other _ => ""

/-- getTwitterUser mirrors `getTwitterUser` in twitter.go.  The upstream
`Users.Show` call is abstracted as its result; the numeric parsing of the
opaque ID string is below the granularity of the model.  A permanent
account error is converted to a synthetic placeholder profile with zero
counts; every other error propagates. -/
def getTwitterUser (result : Except LookupErr TwitterUser) (twitterID : String) :
    Except LookupErr TwitterUser :=
  match result with
  | .ok u => .ok u
  | .error err =>
    let msg := permanentErrorMessage err
    if msg ≠ "" then
      .ok { IDStr := twitterID, ScreenName := msg, FriendsCount := 0, FollowersCount := 0,
            URL := "", Description := [], ProfileImageURL := "", ProfileImageURLHttps := "" }
    else .error err

/-- TwitterAPI is the oracle for the upstream paginated-ID and lookup calls.
`friendsPage id cursor` and `followersPage id cursor` return one page of IDs
plus the next cursor, as `addFriendsPage`/`addFollowersPage` obtain them
from `Friends.IDs`/`Followers.IDs`. -/
structure TwitterAPI where
  friendsPage : String → Int → List String × Int
  followersPage : String → Int → List String × Int
  lookupUser : String → Except LookupErr TwitterUser

/-- truncate500 is the description-truncation step shared by `hydrateHandle`
and `newRootHandle`: descriptions longer than 500 characters are cut to
exactly 500. -/
def truncate500 (s : List Char) : List Char :=
  if s.length > 500 then s.take 500 else s

/-- hydrateNode mirrors the field assignments of `hydrateHandle` on the
child's node: counts, screen name, profile fields are copied from the
looked-up user, the description is truncated, and the node is marked done. -/
def hydrateNode (u : TwitterUser) (n : GephiNode) : GephiNode :=
  { n with
    FriendsCount := u.FriendsCount
    FollowersCount := u.FollowersCount
    ScreenName := u.ScreenName
    Done := true
    ProfileURL := u.URL
    Description := truncate500 u.Description
    ProfileImageURL := u.ProfileImageURL }

/-- initialRootHandle mirrors the `RootHandle` literal built by
`newRootHandle`: fresh cursors `-1`, `Remaining = -1`, status
"Preparing to fetch", description truncated to 500 characters. -/
def initialRootHandle (userID : String) (u : TwitterUser) : RootHandle :=
  { LoginID := userID
    Node :=
      { TwitterID := u.IDStr
        ScreenName := u.ScreenName
        Relationship := "Root"
        FollowersCount := u.FollowersCount
        FriendsCount := u.FriendsCount
        FriendIDs := []
        FollowerIDs := []
        Done := false
        ProfileURL := u.URL
        Description := truncate500 u.Description
        ProfileImageURL := u.ProfileImageURLHttps }
    FollowersCursor := -1
    FriendsCursor := -1
    Status := "Preparing to fetch"
    Remaining := -1
    PrepareGraph := false }

/-- Children is the `FetchedHandle` collection of one Job: an association
list keyed by the child document ID (the child's Twitter ID). -/
abbrev Children := List (String × FetchedHandle)

/-- keysOf lists the document IDs of a children collection. -/
def keysOf (cs : Children) : List String := cs.map (fun p => p.1)

/-- lookupChild reads the child document with the given ID, if present. -/
def lookupChild (cs : Children) (id : String) : Option FetchedHandle :=
  (cs.find? (fun p => p.1 = id)).map (fun p => p.2)

/-- setChild is a Firestore `Set` on the child document with the given ID:
it overwrites the existing document or creates a new one. -/
def setChild (cs : Children) (id : String) (fh : FetchedHandle) : Children :=
  if cs.any (fun p => p.1 = id) then
    cs.map (fun p => if p.1 = id then (id, fh) else p)
  else cs ++ [(id, fh)]

/-- blankFetched is the `FetchedHandle` literal written by
`newFetchedHandles` for one discovered ID: only the Twitter ID and the
relationship tag are set, every other field is the Go zero value. -/
def blankFetched (parentID relationship id : String) : FetchedHandle :=
  { ParentID := parentID
    Node :=
      { TwitterID := id, ScreenName := "", Relationship := relationship
        FriendsCount := 0, FollowersCount := 0, FriendIDs := [], FollowerIDs := []
        Done := false, ProfileURL := "", Description := [], ProfileImageURL := "" } }

/-- newFetchedHandles mirrors `newFetchedHandles`: one batched `Set` per
discovered Twitter ID, keyed by that ID (the batch chunking at 500 writes
does not change the resulting documents). -/
def newFetchedHandles (cs : Children) (relationship parentID : String)
    (twitterIDs : List String) : Children :=
  twitterIDs.foldl (fun acc id => setChild acc id (blankFetched parentID relationship id)) cs

/-- firstUnhydrated mirrors `getUnfinishedFetchHandle`: the first child
document whose node is not yet done, if any. -/
def firstUnhydrated (cs : Children) : Option FetchedHandle :=
  (cs.find? (fun p => p.2.Node.Done = false)).map (fun p => p.2)

/-- countUnhydrated counts the child documents that are not yet hydrated. -/
def countUnhydrated (cs : Children) : Nat :=
  (cs.filter (fun p => p.2.Node.Done = false)).length

/-- keysConsistent says every child document's node carries the document's
own key as its Twitter ID, as every write of a child document does. -/
def keysConsistent (cs : Children) : Prop :=
  ∀ p ∈ cs, p.2.Node.TwitterID = p.1

/-- allUnhydrated says no child document is hydrated yet. -/
def allUnhydrated (cs : Children) : Prop :=
  ∀ p ∈ cs, p.2.Node.Done = false

/-- countDistinct is the counting step of `runTick`: the number of distinct
IDs across the friend and follower lists, computed in Go by inserting both
lists into one map and taking its size. -/
def countDistinct (friends followers : List String) : Nat :=
  (friends ++ followers).toFinset.card

/-- JobStore is the durable state of one Job: the `RootHandle` document and
its `FetchedHandle` subcollection. -/
structure JobStore where
  job : RootHandle
  children : Children
deriving DecidableEq

/-- Inv is the consistency invariant every reachable Job store satisfies:
child keys are duplicate-free and consistent with the stored nodes; while
the count is still uncomputed (`Remaining = -1`) the child keys are exactly
the IDs collected in the root's lists and no child is hydrated; once the
count is computed, `Remaining` equals the number of unhydrated children and
both pagination cursors are exhausted. -/
def Inv (s : JobStore) : Prop :=
  (keysOf s.children).Nodup ∧ keysConsistent s.children ∧
  (if s.job.Remaining = -1 then
    (keysOf s.children).toFinset =
      (s.job.Node.FriendIDs ++ s.job.Node.FollowerIDs).toFinset ∧
    allUnhydrated s.children
  else
    s.job.Remaining = (countUnhydrated s.children : Int) ∧
    s.job.FollowersCursor = 0 ∧ s.job.FriendsCursor = 0)

/-! ## Graph exporter (gephi.go) -/

/-- validIDs is the map `m` built at the start of `buildGephiFile`: the root
ID together with every ID in the root's friend and follower lists. -/
def validIDs (root : GephiNode) : List String :=
  root.TwitterID :: (root.FriendIDs ++ root.FollowerIDs)

/-- insertEdge adds one ordered (source, target) pair to the edge set,
mirroring insertion into the Go map keyed by the pair. -/
def insertEdge (es : List (String × String)) (e : String × String) :
    List (String × String) :=
  if e ∈ es then es else es ++ [e]

/-- appendEdgeSet mirrors `appendEdgeSet`: for each follower ID an edge
follower → self, for each friend ID an edge self → friend, both only when
the other endpoint is a valid ID. -/
def appendEdgeSet (es : List (String × String)) (valid : List String)
    (n : GephiNode) : List (String × String) :=
  let es1 := n.FollowerIDs.foldl
    (fun acc f => if f ∈ valid then insertEdge acc (f, n.TwitterID) else acc) es
  n.FriendIDs.foldl
    (fun acc fr => if fr ∈ valid then insertEdge acc (n.TwitterID, fr) else acc) es1

/-- buildEdgeList is the edge-set computation of `buildGephiFile`: edges of
the root node, then of every fetched handle, deduplicated by ordered pair. -/
def buildEdgeList (root : GephiNode) (nodes : List GephiNode) :
    List (String × String) :=
  nodes.foldl (fun acc n => appendEdgeSet acc (validIDs root) n)
    (appendEdgeSet [] (validIDs root) root)

/-! ## Tick engine (runTick) -/

/-- fetchedFollowersMsg is the status `Fetched %v follower IDs`. -/
def fetchedFollowersMsg (n : Nat) : String := s!"Fetched {n} follower IDs"

/-- fetchedFriendsMsg is the status `Fetched %v friend IDs`. -/
def fetchedFriendsMsg (n : Nat) : String := s!"Fetched {n} friend IDs"

/-- enqueuedMsg is the status `Enqueued %v handles`. -/
def enqueuedMsg (n : Nat) : String := s!"Enqueued {n} handles"

/-- fetchedHandleMsg is the status `Fetched %v` with the hydrated child's
screen name. -/
def fetchedHandleMsg (name : String) : String := "Fetched " ++ name

/-- childExpandedNode is the inline-expansion step of the hydration branch:
when the looked-up user's friend (resp. follower) count is nonzero and at
most 5000, one page of friend (resp. follower) IDs fetched with cursor `-1`
is appended to the child's node. -/
def childExpandedNode (api : TwitterAPI) (fh : FetchedHandle) (u : TwitterUser) : GephiNode :=
  let node1 :=
    if u.FriendsCount ≠ 0 ∧ u.FriendsCount ≤ 5000 then
      { fh.Node with
        FriendIDs := fh.Node.FriendIDs ++ (api.friendsPage fh.Node.TwitterID (-1)).1 }
    else fh.Node
  if u.FollowersCount ≠ 0 ∧ u.FollowersCount ≤ 5000 then
    { node1 with
      FollowerIDs := node1.FollowerIDs ++ (api.followersPage fh.Node.TwitterID (-1)).1 }
  else node1

/-- doneChildNodes mirrors `getDoneJobs`: the nodes of the children already
marked done. -/
def doneChildNodes (cs : Children) : List GephiNode :=
  (cs.filter (fun p => p.2.Node.Done = true)).map (fun p => p.2.Node)

/-- TickErr is a failure of one tick: the already-done rejection, or a
propagated child-lookup error. -/
inductive TickErr where
  | alreadyDone (id : String)
  | lookup (e : LookupErr)
deriving DecidableEq

/-- TickOk is the result of a successful tick: the updated store, the
returned status message, and the graph content written to blob storage by
the prepare-graph branch, when that branch ran. -/
structure TickOk where
  store : JobStore
  msg : String
  wrote : Option (List (String × String))
deriving DecidableEq

/-- runTick is the state machine of `runTick` in the Go worker, branch for
branch.  `stale` is the `RootHandle` snapshot the caller loaded before the
tick; every branch but the hydration transaction works from that snapshot,
while the hydration branch re-reads the Job from the store, as the Go code
re-reads it inside the Firestore transaction. -/
def runTick (api : TwitterAPI) (s : JobStore) (stale : RootHandle) :
    Except TickErr TickOk :=
  if stale.Node.Done then .error (.alreadyDone stale.Node.TwitterID)
  else if stale.PrepareGraph then
    let content := buildEdgeList stale.Node (doneChildNodes s.children)
    let job := { stale with
      Status := "", PrepareGraph := false, Node := { stale.Node with Done := true } }
    .ok { store := { s with job := job }, msg := "Graph built", wrote := some content }
  else if stale.FollowersCursor ≠ 0 then
    let page := api.followersPage stale.Node.TwitterID stale.FollowersCursor
    let node := { stale.Node with FollowerIDs := stale.Node.FollowerIDs ++ page.1 }
    let children := newFetchedHandles s.children "Follower" stale.Node.TwitterID page.1
    let msg := fetchedFollowersMsg page.1.length
    let job := { stale with Node := node, FollowersCursor := page.2, Status := msg }
    .ok { store := { job := job, children := children }, msg := msg, wrote := none }
  else if stale.FriendsCursor ≠ 0 then
    let page := api.friendsPage stale.Node.TwitterID stale.FriendsCursor
    let node := { stale.Node with FriendIDs := stale.Node.FriendIDs ++ page.1 }
    let children := newFetchedHandles s.children "Friend" stale.Node.TwitterID page.1
    let msg := fetchedFriendsMsg page.1.length
    let job := { stale with Node := node, FriendsCursor := page.2, Status := msg }
    .ok { store := { job := job, children := children }, msg := msg, wrote := none }
  else if stale.Remaining = -1 then
    let n := countDistinct stale.Node.FriendIDs stale.Node.FollowerIDs
    let msg := enqueuedMsg n
    let job := { stale with Status := msg, Remaining := (n : Int) }
    .ok { store := { s with job := job }, msg := msg, wrote := none }
  else
    let fresh := s.job
    match firstUnhydrated s.children with
    | none =>
      let msg := "Preparing graph"
      let job := { fresh with PrepareGraph := true, Status := msg, Remaining := 0 }
      .ok { store := { s with job := job }, msg := msg, wrote := none }
    | some fh =>
      match getTwitterUser (api.lookupUser fh.Node.TwitterID) fh.Node.TwitterID with
      | .error e => .error (.lookup e)
      | .ok u =>
        let children := setChild s.children fh.Node.TwitterID
          { fh with Node := hydrateNode u (childExpandedNode api fh u) }
        let msg := fetchedHandleMsg u.ScreenName
        let job := { fresh with Status := msg, Remaining := fresh.Remaining - 1 }
        .ok { store := { job := job, children := children }, msg := msg, wrote := none }

/-- runTicks drives the state machine as the worker does: each invocation
freshly loads the Job from the store and runs one tick, collecting the
status messages; it stops at the first tick failure. -/
def runTicks (api : TwitterAPI) : Nat → JobStore → List String × JobStore
  | 0, s => ([], s)
  | Nat.succ n, s =>
    match runTick api s s.job with
    | .error _ => ([], s)
    | .ok r =>
      let rest := runTicks api n r.store
      (r.msg :: rest.1, rest.2)

/-! ## Phase dispatch -/

/-- TickBranch names the six branches of the `runTick` priority chain. -/
inductive TickBranch where
  | done
  | prepareOutput
  | pagingFollowers
  | pagingFriends
  | counting
  | hydration
deriving DecidableEq

/-- firesAt states that the given branch is the one `runTick` dispatches to
for a Job in this state: each branch's guard together with the negation of
every higher-priority guard. -/
def firesAt (h : RootHandle) : TickBranch → Prop
  | .done => h.Node.Done = true
  | .prepareOutput => h.Node.Done = false ∧ h.PrepareGraph = true
  | .pagingFollowers => h.Node.Done = false ∧ h.PrepareGraph = false ∧ h.FollowersCursor ≠ 0
  | .pagingFriends => h.Node.Done = false ∧ h.PrepareGraph = false ∧
      h.FollowersCursor = 0 ∧ h.FriendsCursor ≠ 0
  | .counting => h.Node.Done = false ∧ h.PrepareGraph = false ∧
      h.FollowersCursor = 0 ∧ h.FriendsCursor = 0 ∧ h.Remaining = -1
  | .hydration => h.Node.Done = false ∧ h.PrepareGraph = false ∧
      h.FollowersCursor = 0 ∧ h.FriendsCursor = 0 ∧ h.Remaining ≠ -1

/-- branchOf computes the branch the `runTick` if-chain dispatches to. -/
def branchOf (h : RootHandle) : TickBranch :=
  if h.Node.Done then .done
  else if h.PrepareGraph then .prepareOutput
  else if h.FollowersCursor ≠ 0 then .pagingFollowers
  else if h.FriendsCursor ≠ 0 then .pagingFriends
  else if h.Remaining = -1 then .counting
  else .hydration

/-! ## Driver (workerHandler) and system store -/

/-- SysStore is the whole Firestore tree the Driver sees: the `User`
collection's document IDs and, per (owner, root) key, one Job with its
children. -/
structure SysStore where
  users : List String
  jobs : List JobStore
deriving DecidableEq

/-- jobKey is the (ownerId, rootId) composite key of a Job. -/
def jobKey (js : JobStore) : String × String := (js.job.LoginID, js.job.Node.TwitterID)

/-- getRootHandleFromString mirrors the point read of the exactly addressed
Job; a missing document is a NotFound error. -/
def getRootHandleFromString (sys : SysStore) (owner rootId : String) : Option JobStore :=
  sys.jobs.find? (fun js => jobKey js = (owner, rootId))

/-- getUnfinishedRootHandle mirrors the query for the first not-done Job of
one owner; `none` when that owner has no work to do. -/
def getUnfinishedRootHandle (sys : SysStore) (owner : String) : Option JobStore :=
  sys.jobs.find? (fun js => js.job.LoginID = owner ∧ js.job.Node.Done = false)

/-- getRootHandlePerUser mirrors the all-users sweep: at most one not-done
Job per user, skipping users without one. -/
def getRootHandlePerUser (sys : SysStore) : List JobStore :=
  sys.users.filterMap (fun u => getUnfinishedRootHandle sys u)

/-- Address is the worker URL's addressing mode. -/
inductive Address where
  | exactly (owner rootId : String)
  | byOwner (owner : String)
  | all
deriving DecidableEq

/-- selectJobs is the selection step of `workerHandler`.  The selected list
holds `Option JobStore` because the Go code appends the possibly-nil
pointer returned by `getUnfinishedRootHandle` in owner-only mode without a
nil check. -/
def selectJobs (sys : SysStore) : Address → Except String (List (Option JobStore))
  | .exactly owner rootId =>
    match getRootHandleFromString sys owner rootId with
    | none => .error "not found"
    | some js => .ok [some js]
  | .byOwner owner => .ok [getUnfinishedRootHandle sys owner]
  | .all => .ok ((getRootHandlePerUser sys).map (fun js => some js))

/-- updateJobStore replaces the Job with the given key in the system store. -/
def updateJobStore (sys : SysStore) (key : String × String) (js : JobStore) : SysStore :=
  { sys with jobs := sys.jobs.map (fun j => if jobKey j = key then js else j) }

/-- setJobStatus mirrors `updateRootHandleStatus`: a status-only write to
the Job document. -/
def setJobStatus (sys : SysStore) (key : String × String) (msg : String) : SysStore :=
  { sys with jobs := sys.jobs.map (fun j =>
      if jobKey j = key then { j with job := { j.job with Status := msg } } else j) }

/-- tickAll is the per-Job loop of `workerHandler`: each selected handle is
advanced one tick against its current store entry; a tick failure writes
the error text into the Job's status and is reported without aborting the
remaining Jobs. -/
def tickAll (api : TwitterAPI) : SysStore → List (Option JobStore) → SysStore × List String
  | sys, [] => (sys, [])
  | sys, none :: rest => tickAll api sys rest
  | sys, some handle :: rest =>
    let key := jobKey handle
    let current := (getRootHandleFromString sys key.1 key.2).getD handle
    let step :=
      match runTick api current handle.job with
      | .error _ =>
        let s := "worker error: (" ++ key.1 ++ ")"
        (setJobStatus sys key s, s)
      | .ok r =>
        (updateJobStore sys key r.store, "Updated " ++ key.1 ++ ": " ++ r.msg)
    let rest1 := tickAll api step.1 rest
    (rest1.1, step.2 :: rest1.2)

/-- DriverResult is the observable outcome of one worker invocation: a
normal response, an HTTP error response, or a runtime panic. -/
inductive DriverResult where
  | output (sys : SysStore) (msgs : List String)
  | httpError (sys : SysStore) (msg : String)
  | panicked
deriving DecidableEq

/-- workerCore is `workerHandler` after the cron-header and minute-skip
throttles: select the Jobs for the addressing mode, answer "User done"
when the list is empty or its first Job is done, and otherwise advance each
selected Job one tick.  Indexing `rootHandles[0].Node.Done` on the nil
pointer appended in owner-only mode is a panic. -/
def workerCore (api : TwitterAPI) (sys : SysStore) (addr : Address) : DriverResult :=
  match selectJobs sys addr with
  | .error msg => .httpError sys msg
  | .ok handles =>
    match handles with
    | [] => .output sys ["User done"]
    | none :: _ => .panicked
    | some js0 :: _ =>
      if js0.job.Node.Done then .output sys ["User done"]
      else
        let r := tickAll api sys handles
        .output r.1 r.2

/-! ## Enqueue (newRootHandle / enqueueHandle) -/

/-- newRootHandleSys mirrors `newRootHandle` at the store level: a
Firestore `Create` of the Job document keyed by (ownerId, rootId), which
fails without writing anything when that document already exists.  The
Bool reports whether the create succeeded. -/
def newRootHandleSys (sys : SysStore) (userID : String) (u : TwitterUser) :
    SysStore × Bool :=
  if sys.jobs.any (fun js => jobKey js = (userID, u.IDStr)) then (sys, false)
  else ({ sys with jobs :=
      sys.jobs ++ [{ job := initialRootHandle userID u, children := [] }] }, true)

/-! ## Concrete scenario inputs -/

/-- rootUserC1 is the looked-up root account of the end-to-end scenario:
2 followers, 0 friends. -/
def rootUserC1 : TwitterUser :=
  { IDStr := "1", ScreenName := "R", FriendsCount := 0, FollowersCount := 2,
    URL := "", Description := [], ProfileImageURL := "", ProfileImageURLHttps := "" }

/-- childUser is a child account with zero friend and follower counts. -/
def childUser (id nm : String) : TwitterUser :=
  { IDStr := id, ScreenName := nm, FriendsCount := 0, FollowersCount := 0,
    URL := "", Description := [], ProfileImageURL := "", ProfileImageURLHttps := "" }

/-- apiC1 is the upstream oracle of the end-to-end scenario: the root's
single follower page holds IDs 2 and 3 and exhausts the cursor, the friend
page is empty, and both children resolve to live accounts. -/
def apiC1 : TwitterAPI :=
  { friendsPage := fun _ _ => ([], 0)
    followersPage := fun id c => if id = "1" ∧ c = -1 then (["2", "3"], 0) else ([], 0)
    lookupUser := fun id =>
      if id = "2" then .ok (childUser "2" "u2")
      else if id = "3" then .ok (childUser "3" "u3")
      else .error (.other "no such user") }

/-- storeC1 is the store right after enqueueing the scenario root. -/
def storeC1 : JobStore := { job := initialRootHandle "owner" rootUserC1, children := [] }

/-- nodeC4root is the C4 root node: friend IDs [2,3], follower IDs [3]. -/
def nodeC4root : GephiNode :=
  { TwitterID := "1", ScreenName := "R", Relationship := "Root",
    FriendsCount := 2, FollowersCount := 1, FriendIDs := ["2", "3"],
    FollowerIDs := ["3"], Done := false, ProfileURL := "", Description := [],
    ProfileImageURL := "" }

/-- nodeC4child2 is the hydrated child node 2; its friend list mentions the
absent ID 4. -/
def nodeC4child2 : GephiNode :=
  { TwitterID := "2", ScreenName := "u2", Relationship := "Friend",
    FriendsCount := 1, FollowersCount := 0, FriendIDs := ["4"],
    FollowerIDs := [], Done := true, ProfileURL := "", Description := [],
    ProfileImageURL := "" }

/-- nodeC4child3 is the hydrated child node 3; its follower list mentions
the absent ID 4. -/
def nodeC4child3 : GephiNode :=
  { TwitterID := "3", ScreenName := "u3", Relationship := "Friend",
    FriendsCount := 0, FollowersCount := 1, FriendIDs := [],
    FollowerIDs := ["4"], Done := true, ProfileURL := "", Description := [],
    ProfileImageURL := "" }

/-- userC5 is an account whose description is 501 characters long. -/
def userC5 : TwitterUser :=
  { IDStr := "9", ScreenName := "long", FriendsCount := 0, FollowersCount := 0,
    URL := "", Description := List.replicate 501 'a', ProfileImageURL := "",
    ProfileImageURLHttps := "" }

/-- apiNone is an oracle with empty pages and failing lookups, for
invocations that are not supposed to call upstream at all. -/
def apiNone : TwitterAPI :=
  { friendsPage := fun _ _ => ([], 0)
    followersPage := fun _ _ => ([], 0)
    lookupUser := fun _ => .error (.other "unavailable") }

/-- storeC7 is a Job in the hydration phase with one unhydrated child 7. -/
def storeC7 : JobStore :=
  { job := { initialRootHandle "owner" rootUserC1 with
      FollowersCursor := 0
      FriendsCursor := 0
      Remaining := 1 }
    children := [("7", blankFetched "1" "Follower" "7")] }

/-- apiC7 is an oracle whose lookup of child 7 reports a suspended account
(error code 63). -/
def apiC7 : TwitterAPI :=
  { friendsPage := fun _ _ => ([], 0)
    followersPage := fun _ _ => ([], 0)
    lookupUser := fun _ => .error (.api { Errors := [{ Code := 63, Message := "suspended" }] }) }

/-- apiC8 is an oracle whose lookup of child 7 succeeds with zero counts. -/
def apiC8 : TwitterAPI :=
  { friendsPage := fun _ _ => ([], 0)
    followersPage := fun _ _ => ([], 0)
    lookupUser := fun _ => .ok (childUser "7" "u7") }

/-- sysC9 is a system store holding one Job, for owner "alice" and root 1. -/
def sysC9 : SysStore :=
  { users := ["alice"]
    jobs := [{ job := initialRootHandle "alice" rootUserC1
               children := [("7", blankFetched "1" "Follower" "7")] }] }

/-- bothPagesChildren is the children collection after the two paging
phases run in their priority order: first the followers batch, then the
friends batch (runTick checks FollowersCursor before FriendsCursor). -/
def bothPagesChildren (parentID : String) (followerIDs friendIDs : List String) : Children :=
  newFetchedHandles (newFetchedHandles [] "Follower" parentID followerIDs)
    "Friend" parentID friendIDs

/-- sysC3 is a system store where owner alice has no Job at all. -/
def sysC3 : SysStore := { users := ["alice"], jobs := [] }

/-- doneJobC3 is a finished Job for alice rooted at account 1. -/
def doneJobC3 : JobStore :=
  { job := { initialRootHandle "alice" rootUserC1 with
      Node := { (initialRootHandle "alice" rootUserC1).Node with Done := true } }
    children := [] }

/-- sysDoneC3 is a system store where alice's only Job is already done. -/
def sysDoneC3 : SysStore := { users := ["alice"], jobs := [doneJobC3] }

/-- storeDoneC2 is a Job store whose Job is already done. -/
def storeDoneC2 : JobStore := { job := doneJobC3.job, children := [] }

/-- storeC6 is a Job that has finished both paging phases with friend IDs
[a,b,c] and follower IDs [b,c,d] and is about to run the counting tick. -/
def storeC6 : JobStore :=
  { job := { initialRootHandle "owner" rootUserC1 with
      FollowersCursor := 0
      FriendsCursor := 0
      Node := { (initialRootHandle "owner" rootUserC1).Node with
        FriendIDs := ["a", "b", "c"]
        FollowerIDs := ["b", "c", "d"] } }
    children := [] }

end Twitterweb

namespace Twitterweb

/-! ## Branch characterization lemmas for runTick -/

/-- A tick on a done Job is rejected. -/
theorem runTick_done_branch (api : TwitterAPI) (s : JobStore) (stale : RootHandle)
    (h1 : stale.Node.Done = true) :
    runTick api s stale = .error (.alreadyDone stale.Node.TwitterID) := by
  simp [runTick, h1]

/-- The prepare-graph branch builds the file, clears the flag and marks the
Job done. -/
theorem runTick_prepare_branch (api : TwitterAPI) (s : JobStore) (stale : RootHandle)
    (h1 : stale.Node.Done = false) (h2 : stale.PrepareGraph = true) :
    runTick api s stale =
      .ok { store := { s with job := { stale with
              Status := "", PrepareGraph := false,
              Node := { stale.Node with Done := true } } }
            msg := "Graph built"
            wrote := some (buildEdgeList stale.Node (doneChildNodes s.children)) } := by
  simp [runTick, h1, h2]

/-- The followers-paging branch fetches one page, appends the IDs, creates
the ChildTasks and stores the next cursor. -/
theorem runTick_followers_branch (api : TwitterAPI) (s : JobStore) (stale : RootHandle)
    (h1 : stale.Node.Done = false) (h2 : stale.PrepareGraph = false)
    (h3 : stale.FollowersCursor ≠ 0) :
    runTick api s stale =
      .ok {
        store := {
          job := { stale with
            Node := { stale.Node with FollowerIDs := stale.Node.FollowerIDs ++
              (api.followersPage stale.Node.TwitterID stale.FollowersCursor).1 }
            FollowersCursor := (api.followersPage stale.Node.TwitterID stale.FollowersCursor).2
            Status := fetchedFollowersMsg
              (api.followersPage stale.Node.TwitterID stale.FollowersCursor).1.length }
          children := newFetchedHandles s.children "Follower" stale.Node.TwitterID
            (api.followersPage stale.Node.TwitterID stale.FollowersCursor).1 }
        msg := fetchedFollowersMsg
          (api.followersPage stale.Node.TwitterID stale.FollowersCursor).1.length
        wrote := none } := by
  simp [runTick, h1, h2, h3]

/-- The friends-paging branch is the followers branch for friends. -/
theorem runTick_friends_branch (api : TwitterAPI) (s : JobStore) (stale : RootHandle)
    (h1 : stale.Node.Done = false) (h2 : stale.PrepareGraph = false)
    (h3 : stale.FollowersCursor = 0) (h4 : stale.FriendsCursor ≠ 0) :
    runTick api s stale =
      .ok {
        store := {
          job := { stale with
            Node := { stale.Node with FriendIDs := stale.Node.FriendIDs ++
              (api.friendsPage stale.Node.TwitterID stale.FriendsCursor).1 }
            FriendsCursor := (api.friendsPage stale.Node.TwitterID stale.FriendsCursor).2
            Status := fetchedFriendsMsg
              (api.friendsPage stale.Node.TwitterID stale.FriendsCursor).1.length }
          children := newFetchedHandles s.children "Friend" stale.Node.TwitterID
            (api.friendsPage stale.Node.TwitterID stale.FriendsCursor).1 }
        msg := fetchedFriendsMsg
          (api.friendsPage stale.Node.TwitterID stale.FriendsCursor).1.length
        wrote := none } := by
  simp [runTick, h1, h2, h3, h4]

/-- The counting branch stores the deduplicated ID count. -/
theorem runTick_counting_branch (api : TwitterAPI) (s : JobStore) (stale : RootHandle)
    (h1 : stale.Node.Done = false) (h2 : stale.PrepareGraph = false)
    (h3 : stale.FollowersCursor = 0) (h4 : stale.FriendsCursor = 0)
    (h5 : stale.Remaining = -1) :
    runTick api s stale =
      .ok { store := { s with job := { stale with
              Status := enqueuedMsg (countDistinct stale.Node.FriendIDs stale.Node.FollowerIDs)
              Remaining := (countDistinct stale.Node.FriendIDs stale.Node.FollowerIDs : Int) } }
            msg := enqueuedMsg (countDistinct stale.Node.FriendIDs stale.Node.FollowerIDs)
            wrote := none } := by
  simp [runTick, h1, h2, h3, h4, h5]

/-- With no unhydrated child left, the hydration branch flips the Job into
the prepare-graph phase. -/
theorem runTick_hydration_none_branch (api : TwitterAPI) (s : JobStore) (stale : RootHandle)
    (h1 : stale.Node.Done = false) (h2 : stale.PrepareGraph = false)
    (h3 : stale.FollowersCursor = 0) (h4 : stale.FriendsCursor = 0)
    (h5 : stale.Remaining ≠ -1)
    (hfind : firstUnhydrated s.children = none) :
    runTick api s stale =
      .ok { store := { s with job := { s.job with
              PrepareGraph := true, Status := "Preparing graph", Remaining := 0 } }
            msg := "Preparing graph"
            wrote := none } := by
  simp [runTick, h1, h2, h3, h4, h5, hfind]

/-- With an unhydrated child whose lookup resolves, the hydration branch
hydrates that child and decrements the freshly re-read Remaining. -/
theorem runTick_hydration_some_branch (api : TwitterAPI) (s : JobStore) (stale : RootHandle)
    (fh : FetchedHandle) (u : TwitterUser)
    (h1 : stale.Node.Done = false) (h2 : stale.PrepareGraph = false)
    (h3 : stale.FollowersCursor = 0) (h4 : stale.FriendsCursor = 0)
    (h5 : stale.Remaining ≠ -1)
    (hfind : firstUnhydrated s.children = some fh)
    (huser : getTwitterUser (api.lookupUser fh.Node.TwitterID) fh.Node.TwitterID = .ok u) :
    runTick api s stale =
      .ok {
        store := {
          job := { s.job with
            Status := fetchedHandleMsg u.ScreenName
            Remaining := s.job.Remaining - 1 }
          children := setChild s.children fh.Node.TwitterID
            { fh with Node := hydrateNode u (childExpandedNode api fh u) } }
        msg := fetchedHandleMsg u.ScreenName
        wrote := none } := by
  simp [runTick, h1, h2, h3, h4, h5, hfind, huser]

/-- Inserting an edge into a duplicate-free edge list keeps it
duplicate-free. -/
theorem insertEdge_nodup (es : List (String × String)) (e : String × String)
    (h : es.Nodup) : (insertEdge es e).Nodup := by
  unfold insertEdge
  split
  · exact h
  · next he => simp [List.nodup_append, h, he]

/-- Folding a step that preserves duplicate-freedom preserves it. -/
theorem foldl_nodup_of_step {α : Type} (f : List (String × String) → α → List (String × String))
    (hf : ∀ acc a, acc.Nodup → (f acc a).Nodup) :
    ∀ (l : List α) (acc : List (String × String)), acc.Nodup → (l.foldl f acc).Nodup
  | [], _, h => h
  | a :: l, acc, h => foldl_nodup_of_step f hf l (f acc a) (hf acc a h)

/-- appendEdgeSet never introduces a duplicate ordered pair. -/
theorem appendEdgeSet_nodup (es : List (String × String)) (valid : List String)
    (n : GephiNode) (h : es.Nodup) : (appendEdgeSet es valid n).Nodup := by
  unfold appendEdgeSet
  apply foldl_nodup_of_step
  · intro acc a ha
    split
    · exact insertEdge_nodup acc _ ha
    · exact ha
  · apply foldl_nodup_of_step
    · intro acc a ha
      split
      · exact insertEdge_nodup acc _ ha
      · exact ha
    · exact h

/-- The whole exported edge list is duplicate-free. -/
theorem buildEdgeList_nodup (root : GephiNode) (nodes : List GephiNode) :
    (buildEdgeList root nodes).Nodup := by
  unfold buildEdgeList
  apply foldl_nodup_of_step
  · intro acc a ha
    exact appendEdgeSet_nodup acc _ a ha
  · exact appendEdgeSet_nodup [] _ root List.nodup_nil

/-- With an unhydrated child whose lookup fails non-permanently, the tick
fails with that error. -/
theorem runTick_hydration_error_branch (api : TwitterAPI) (s : JobStore) (stale : RootHandle)
    (fh : FetchedHandle) (e : LookupErr)
    (h1 : stale.Node.Done = false) (h2 : stale.PrepareGraph = false)
    (h3 : stale.FollowersCursor = 0) (h4 : stale.FriendsCursor = 0)
    (h5 : stale.Remaining ≠ -1)
    (hfind : firstUnhydrated s.children = some fh)
    (huser : getTwitterUser (api.lookupUser fh.Node.TwitterID) fh.Node.TwitterID = .error e) :
    runTick api s stale = .error (.lookup e) := by
  simp [runTick, h1, h2, h3, h4, h5, hfind, huser]

/-! ## Children-store lemmas -/

/-- The existence test of setChild agrees with key membership. -/
theorem any_key_eq (cs : Children) (id : String) :
    cs.any (fun p => p.1 = id) = true ↔ id ∈ keysOf cs := by
  rw [List.any_eq_true]
  unfold keysOf
  constructor
  · rintro ⟨p, hp, hpe⟩
    exact List.mem_map.mpr ⟨p, hp, of_decide_eq_true hpe⟩
  · intro h
    rcases List.mem_map.mp h with ⟨p, hp, rfl⟩
    exact ⟨p, hp, by simp⟩

/-- setChild keeps the key list when the key is present and appends it
otherwise. -/
theorem keysOf_setChild (cs : Children) (id : String) (fh : FetchedHandle) :
    keysOf (setChild cs id fh) =
      if id ∈ keysOf cs then keysOf cs else keysOf cs ++ [id] := by
  unfold setChild
  by_cases h : id ∈ keysOf cs
  · rw [if_pos ((any_key_eq cs id).mpr h), if_pos h]
    simp only [keysOf, List.map_map]
    apply List.map_congr_left
    intro p _
    by_cases hp : p.1 = id
    · simp [hp, Function.comp]
    · simp [hp, Function.comp]
  · rw [if_neg (fun hc => h ((any_key_eq cs id).mp hc)), if_neg h]
    simp [keysOf]

/-- setChild preserves duplicate-freedom of the key list. -/
theorem nodup_keysOf_setChild (cs : Children) (id : String) (fh : FetchedHandle)
    (h : (keysOf cs).Nodup) : (keysOf (setChild cs id fh)).Nodup := by
  rw [keysOf_setChild]
  by_cases hm : id ∈ keysOf cs
  · simpa [hm] using h
  · simp [hm, List.nodup_append, h]

/-- setChild inserts the key into the key set. -/
theorem toFinset_keysOf_setChild (cs : Children) (id : String) (fh : FetchedHandle) :
    (keysOf (setChild cs id fh)).toFinset = insert id (keysOf cs).toFinset := by
  rw [keysOf_setChild]
  by_cases h : id ∈ keysOf cs
  · rw [if_pos h]
    exact (Finset.insert_eq_self.mpr (List.mem_toFinset.mpr h)).symm
  · rw [if_neg h]
    ext a
    simp [List.mem_toFinset, or_comm]

/-- setChild with a consistent document keeps key consistency. -/
theorem keysConsistent_setChild (cs : Children) (id : String) (fh : FetchedHandle)
    (hfh : fh.Node.TwitterID = id) (h : keysConsistent cs) :
    keysConsistent (setChild cs id fh) := by
  unfold setChild
  split
  · intro p hp
    rcases List.mem_map.mp hp with ⟨q, hq, rfl⟩
    by_cases hq1 : q.1 = id
    · simp [hq1, hfh]
    · simpa [hq1] using h q hq
  · intro p hp
    rcases List.mem_append.mp hp with hp | hp
    · exact h p hp
    · rcases List.mem_singleton.mp hp with rfl
      simpa using hfh

/-- setChild with an unhydrated document preserves all-unhydrated. -/
theorem allUnhydrated_setChild (cs : Children) (id : String) (fh : FetchedHandle)
    (hfh : fh.Node.Done = false) (h : allUnhydrated cs) :
    allUnhydrated (setChild cs id fh) := by
  unfold setChild
  split
  · intro p hp
    rcases List.mem_map.mp hp with ⟨q, hq, rfl⟩
    by_cases hq1 : q.1 = id
    · simp [hq1, hfh]
    · simpa [hq1] using h q hq
  · intro p hp
    rcases List.mem_append.mp hp with hp | hp
    · exact h p hp
    · rcases List.mem_singleton.mp hp with rfl
      simpa using hfh

/-- Bulk child creation adds exactly the page's IDs to the key set. -/
theorem toFinset_keysOf_newFetchedHandles (relationship parentID : String) :
    ∀ (ids : List String) (cs : Children),
      (keysOf (newFetchedHandles cs relationship parentID ids)).toFinset =
        (keysOf cs).toFinset ∪ ids.toFinset
  | [], cs => by simp [newFetchedHandles]
  | id :: ids, cs => by
    have ih := toFinset_keysOf_newFetchedHandles relationship parentID ids
      (setChild cs id (blankFetched parentID relationship id))
    show (keysOf (newFetchedHandles
      (setChild cs id (blankFetched parentID relationship id))
      relationship parentID ids)).toFinset = _
    rw [ih, toFinset_keysOf_setChild]
    ext a
    simp [List.mem_toFinset]

/-- Bulk child creation preserves duplicate-freedom of the key list. -/
theorem nodup_keysOf_newFetchedHandles (relationship parentID : String) :
    ∀ (ids : List String) (cs : Children), (keysOf cs).Nodup →
      (keysOf (newFetchedHandles cs relationship parentID ids)).Nodup
  | [], _, h => h
  | id :: ids, cs, h =>
    nodup_keysOf_newFetchedHandles relationship parentID ids
      (setChild cs id (blankFetched parentID relationship id))
      (nodup_keysOf_setChild cs id _ h)

/-- Bulk child creation preserves key consistency. -/
theorem keysConsistent_newFetchedHandles (relationship parentID : String) :
    ∀ (ids : List String) (cs : Children), keysConsistent cs →
      keysConsistent (newFetchedHandles cs relationship parentID ids)
  | [], _, h => h
  | id :: ids, cs, h =>
    keysConsistent_newFetchedHandles relationship parentID ids
      (setChild cs id (blankFetched parentID relationship id))
      (keysConsistent_setChild cs id _ rfl h)

/-- Bulk child creation writes only unhydrated documents. -/
theorem allUnhydrated_newFetchedHandles (relationship parentID : String) :
    ∀ (ids : List String) (cs : Children), allUnhydrated cs →
      allUnhydrated (newFetchedHandles cs relationship parentID ids)
  | [], _, h => h
  | id :: ids, cs, h =>
    allUnhydrated_newFetchedHandles relationship parentID ids
      (setChild cs id (blankFetched parentID relationship id))
      (allUnhydrated_setChild cs id _ rfl h)

/-- When every child is unhydrated, the unhydrated count is the collection
size. -/
theorem countUnhydrated_eq_length (cs : Children) (h : allUnhydrated cs) :
    countUnhydrated cs = cs.length := by
  unfold countUnhydrated
  rw [List.filter_eq_self.mpr]
  intro p hp
  simpa using h p hp

/-- A collection with unhydrated count zero has no unhydrated child. -/
theorem firstUnhydrated_eq_none_of_count_zero (cs : Children)
    (h : countUnhydrated cs = 0) : firstUnhydrated cs = none := by
  unfold firstUnhydrated
  rw [Option.map_eq_none', List.find?_eq_none]
  intro p hp
  have hnil : cs.filter (fun p => p.2.Node.Done = false) = [] :=
    List.length_eq_zero.mp h
  have := List.filter_eq_nil_iff.mp hnil p hp
  simpa using this

/-- An unhydrated head adds one to the unhydrated count. -/
theorem countUnhydrated_cons_unhyd (p : String × FetchedHandle) (cs : Children)
    (h : p.2.Node.Done = false) :
    countUnhydrated (p :: cs) = countUnhydrated cs + 1 := by
  simp [countUnhydrated, List.filter_cons, h]

/-- A hydrated head does not change the unhydrated count. -/
theorem countUnhydrated_cons_hyd (p : String × FetchedHandle) (cs : Children)
    (h : p.2.Node.Done = true) :
    countUnhydrated (p :: cs) = countUnhydrated cs := by
  simp [countUnhydrated, List.filter_cons, h]

/-- Overwriting the first unhydrated child with a hydrated document lowers
the unhydrated count by exactly one (keys must be duplicate-free and
consistent so that exactly that document is overwritten). -/
theorem countUnhydrated_setChild_hydrated :
    ∀ (cs : Children), (keysOf cs).Nodup → keysConsistent cs →
      ∀ (p0 : String × FetchedHandle),
        cs.find? (fun p => p.2.Node.Done = false) = some p0 →
        ∀ (fh : FetchedHandle), fh.Node.Done = true →
          countUnhydrated (setChild cs p0.2.Node.TwitterID fh) + 1 = countUnhydrated cs
  | [], _, _, p0, hfind, _, _ => by simp at hfind
  | hd :: tl, hnodup, hcons, p0, hfind, fh, hfh => by
    have hnd : hd.1 ∉ keysOf tl ∧ (keysOf tl).Nodup :=
      List.nodup_cons.mp (by simpa [keysOf] using hnodup)
    have hhdkey : hd.2.Node.TwitterID = hd.1 := hcons hd (List.mem_cons_self hd tl)
    have hcons_tl : keysConsistent tl := fun p hp => hcons p (List.mem_cons_of_mem hd hp)
    by_cases hhd : hd.2.Node.Done = false
    · have hp0 : p0 = hd := by
        rw [List.find?_cons_of_pos tl (by simpa using hhd)] at hfind
        exact (Option.some.inj hfind).symm
      subst hp0
      have hany : (p0 :: tl).any (fun p => p.1 = p0.2.Node.TwitterID) = true := by
        simp [List.any_cons, hhdkey]
      have htl_id : tl.map
          (fun p => if p.1 = p0.2.Node.TwitterID then (p0.2.Node.TwitterID, fh) else p) = tl := by
        calc tl.map (fun p => if p.1 = p0.2.Node.TwitterID then (p0.2.Node.TwitterID, fh) else p)
            = tl.map id := by
              apply List.map_congr_left
              intro q hq
              have hqne : q.1 ≠ p0.2.Node.TwitterID := by
                rw [hhdkey]
                intro hbad
                exact hnd.1 (by
                  rw [← hbad]
                  exact List.mem_map.mpr ⟨q, hq, rfl⟩)
              simp [hqne]
          _ = tl := List.map_id tl
      unfold setChild
      rw [if_pos hany]
      simp only [List.map_cons, htl_id]
      rw [if_pos hhdkey.symm]
      rw [countUnhydrated_cons_hyd _ _ hfh, countUnhydrated_cons_unhyd _ _ hhd]
    · have hhdT : hd.2.Node.Done = true := by
        simpa using hhd
      have hfind_tl : tl.find? (fun p => p.2.Node.Done = false) = some p0 := by
        rwa [List.find?_cons_of_neg tl (by simp [hhdT])] at hfind
      have hp0_mem : p0 ∈ tl := List.mem_of_find?_eq_some hfind_tl
      have hp0key : p0.2.Node.TwitterID = p0.1 := hcons_tl p0 hp0_mem
      have hkey_mem : p0.1 ∈ keysOf tl := List.mem_map.mpr ⟨p0, hp0_mem, rfl⟩
      have hne : hd.1 ≠ p0.1 := fun hbad => hnd.1 (by rw [hbad]; exact hkey_mem)
      have ih := countUnhydrated_setChild_hydrated tl hnd.2 hcons_tl p0 hfind_tl fh hfh
      have hany_tl : tl.any (fun p => p.1 = p0.2.Node.TwitterID) = true := by
        rw [hp0key]
        exact List.any_eq_true.mpr ⟨p0, hp0_mem, by simp⟩
      have hany : (hd :: tl).any (fun p => p.1 = p0.2.Node.TwitterID) = true := by
        simp [List.any_cons, hany_tl]
      unfold setChild at ih ⊢
      rw [if_pos hany]
      rw [if_pos hany_tl] at ih
      simp only [List.map_cons]
      rw [if_neg (by rw [hp0key]; exact hne)]
      rw [countUnhydrated_cons_hyd _ _ hhdT, countUnhydrated_cons_hyd _ _ hhdT]
      exact ih

/-- find? over the overwrite map of setChild finds the overwritten entry. -/
theorem find?_setChild_present :
    ∀ (cs : Children) (id : String) (fh : FetchedHandle),
      cs.any (fun p => p.1 = id) = true →
      (cs.map (fun p => if p.1 = id then (id, fh) else p)).find?
        (fun p => p.1 = id) = some (id, fh)
  | [], _, _, h => by simp at h
  | hd :: tl, id, fh, h => by
    by_cases hh : hd.1 = id
    · simp [List.map_cons, hh]
    · have htl : tl.any (fun p => p.1 = id) = true := by
        rcases List.any_eq_true.mp h with ⟨p, hp, hpe⟩
        rcases List.mem_cons.mp hp with rfl | hp2
        · exact absurd (of_decide_eq_true hpe) hh
        · exact List.any_eq_true.mpr ⟨p, hp2, hpe⟩
      simp only [List.map_cons, if_neg hh]
      rw [List.find?_cons_of_neg _ (by simpa using hh)]
      exact find?_setChild_present tl id fh htl

/-- Reading back the child just written returns it. -/
theorem lookupChild_setChild_self (cs : Children) (id : String) (fh : FetchedHandle) :
    lookupChild (setChild cs id fh) id = some fh := by
  unfold lookupChild setChild
  by_cases h : cs.any (fun p => p.1 = id) = true
  · rw [if_pos h, find?_setChild_present cs id fh h]
    rfl
  · rw [if_neg h, List.find?_append]
    have hnone : cs.find? (fun p => p.1 = id) = none := by
      rw [List.find?_eq_none]
      intro p hp hbad
      exact h (List.any_eq_true.mpr ⟨p, hp, by simpa using hbad⟩)
    rw [hnone]
    simp

/-- Overwriting one key leaves reads of other keys unchanged (map form). -/
theorem find?_map_setChild_ne :
    ∀ (cs : Children) (id id2 : String) (fh : FetchedHandle), id2 ≠ id →
      (cs.map (fun p => if p.1 = id then (id, fh) else p)).find? (fun p => p.1 = id2) =
        cs.find? (fun p => p.1 = id2)
  | [], _, _, _, _ => rfl
  | hd :: tl, id, id2, fh, hne => by
    by_cases hh : hd.1 = id
    · simp only [List.map_cons, if_pos hh]
      rw [List.find?_cons_of_neg _ (by simpa using fun hbad : id = id2 => hne hbad.symm),
        List.find?_cons_of_neg _ (by
          simp only [decide_eq_true_eq]
          intro hbad
          exact hne (by rw [← hbad, hh]))]
      exact find?_map_setChild_ne tl id id2 fh hne
    · simp only [List.map_cons, if_neg hh]
      by_cases h2 : hd.1 = id2
      · rw [List.find?_cons_of_pos _ (by simpa using h2),
          List.find?_cons_of_pos _ (by simpa using h2)]
      · rw [List.find?_cons_of_neg _ (by simpa using h2),
          List.find?_cons_of_neg _ (by simpa using h2)]
        exact find?_map_setChild_ne tl id id2 fh hne

/-- Overwriting one key leaves reads of other keys unchanged. -/
theorem lookupChild_setChild_ne (cs : Children) (id id2 : String) (fh : FetchedHandle)
    (hne : id2 ≠ id) : lookupChild (setChild cs id fh) id2 = lookupChild cs id2 := by
  unfold lookupChild setChild
  by_cases h : cs.any (fun p => p.1 = id) = true
  · rw [if_pos h, find?_map_setChild_ne cs id id2 fh hne]
  · rw [if_neg h, List.find?_append]
    have hsingle : [(id, fh)].find? (fun p => p.1 = id2) = none := by
      rw [List.find?_eq_none]
      intro p hp
      rcases List.mem_singleton.mp hp with rfl
      simpa using fun hbad : id = id2 => hne hbad.symm
    rw [hsingle, Option.or_none]

/-- A bulk write of IDs not containing this one leaves its read unchanged. -/
theorem lookupChild_newFetchedHandles_not_mem (relationship parentID : String) :
    ∀ (ids : List String) (cs : Children) (id : String), id ∉ ids →
      lookupChild (newFetchedHandles cs relationship parentID ids) id = lookupChild cs id
  | [], _, _, _ => rfl
  | x :: ids, cs, id, h => by
    have h1 : id ≠ x := fun hbad => h (hbad ▸ List.mem_cons_self x ids)
    have h2 : id ∉ ids := fun hbad => h (List.mem_cons_of_mem x hbad)
    show lookupChild (newFetchedHandles
      (setChild cs x (blankFetched parentID relationship x)) relationship parentID ids) id = _
    rw [lookupChild_newFetchedHandles_not_mem relationship parentID ids _ id h2]
    exact lookupChild_setChild_ne cs x id _ h1

/-- After a bulk write containing this ID, its document is the blank record
of that batch: the last write of the key wins. -/
theorem lookupChild_newFetchedHandles_mem (relationship parentID : String) :
    ∀ (ids : List String) (cs : Children) (id : String), id ∈ ids →
      lookupChild (newFetchedHandles cs relationship parentID ids) id =
        some (blankFetched parentID relationship id)
  | [], _, _, h => absurd h (List.not_mem_nil _)
  | x :: ids, cs, id, h => by
    by_cases hmem : id ∈ ids
    · exact lookupChild_newFetchedHandles_mem relationship parentID ids _ id hmem
    · have hx : id = x := by
        rcases List.mem_cons.mp h with h | h
        · exact h
        · exact absurd h hmem
      subst hx
      show lookupChild (newFetchedHandles
        (setChild cs id (blankFetched parentID relationship id)) relationship parentID ids) id = _
      rw [lookupChild_newFetchedHandles_not_mem relationship parentID ids _ id hmem]
      exact lookupChild_setChild_self cs id _

/-- childExpandedNode does not change the child's ID. -/
theorem childExpandedNode_TwitterID (api : TwitterAPI) (fh : FetchedHandle) (u : TwitterUser) :
    (childExpandedNode api fh u).TwitterID = fh.Node.TwitterID := by
  unfold childExpandedNode
  split <;> split <;> rfl

/-- A collection with no unhydrated child has unhydrated count zero. -/
theorem countUnhydrated_eq_zero_of_none (cs : Children)
    (h : firstUnhydrated cs = none) : countUnhydrated cs = 0 := by
  unfold firstUnhydrated at h
  rw [Option.map_eq_none'] at h
  unfold countUnhydrated
  rw [List.length_eq_zero, List.filter_eq_nil_iff]
  intro p hp
  have := List.find?_eq_none.mp h p hp
  simpa using this

/-- A found unhydrated child witnesses a positive unhydrated count. -/
theorem countUnhydrated_pos_of_find (cs : Children) (p0 : String × FetchedHandle)
    (h : cs.find? (fun p => p.2.Node.Done = false) = some p0) :
    0 < countUnhydrated cs := by
  unfold countUnhydrated
  rw [List.length_pos]
  intro hnil
  have hmem := List.mem_of_find?_eq_some h
  have hpred := List.find?_some h
  have hin : p0 ∈ cs.filter (fun p => p.2.Node.Done = false) :=
    List.mem_filter.mpr ⟨hmem, hpred⟩
  rw [hnil] at hin
  exact absurd hin (List.not_mem_nil p0)

/-- The branch computed by branchOf indeed fires. -/
theorem firesAt_branchOf (h : RootHandle) : firesAt h (branchOf h) := by
  unfold branchOf
  by_cases h1 : h.Node.Done = true
  · simp [h1, firesAt]
  · have h1f : h.Node.Done = false := by simpa using h1
    by_cases h2 : h.PrepareGraph = true
    · simp [h1f, h2, firesAt]
    · have h2f : h.PrepareGraph = false := by simpa using h2
      by_cases h3 : h.FollowersCursor = 0
      · by_cases h4 : h.FriendsCursor = 0
        · by_cases h5 : h.Remaining = -1
          · simp [h1f, h2f, h3, h4, h5, firesAt]
          · simp [h1f, h2f, h3, h4, h5, firesAt]
        · simp [h1f, h2f, h3, h4, firesAt]
      · simp [h1f, h2f, h3, firesAt]

/-- Only the branch computed by branchOf fires. -/
theorem firesAt_unique (h : RootHandle) (b : TickBranch) (hb : firesAt h b) :
    b = branchOf h := by
  cases b with
  | done =>
    have hd : h.Node.Done = true := hb
    simp [branchOf, hd]
  | prepareOutput =>
    obtain ⟨hd, hp⟩ := hb
    simp [branchOf, hd, hp]
  | pagingFollowers =>
    obtain ⟨hd, hp, hf⟩ := hb
    simp [branchOf, hd, hp, hf]
  | pagingFriends =>
    obtain ⟨hd, hp, hf0, hfr⟩ := hb
    simp [branchOf, hd, hp, hf0, hfr]
  | counting =>
    obtain ⟨hd, hp, hf0, hfr0, hrem⟩ := hb
    simp [branchOf, hd, hp, hf0, hfr0, hrem]
  | hydration =>
    obtain ⟨hd, hp, hf0, hfr0, hrem⟩ := hb
    simp [branchOf, hd, hp, hf0, hfr0, hrem]

/-- One successful freshly-loaded tick preserves the invariant, never
resets an exhausted cursor or a computed Remaining, and completes the
prepare-output phase by marking the Job done. -/
theorem runTick_step_facts (api : TwitterAPI) (s : JobStore) (r : TickOk)
    (hInv : Inv s) (hrun : runTick api s s.job = .ok r) :
    Inv r.store ∧
    (s.job.FollowersCursor = 0 → r.store.job.FollowersCursor = 0) ∧
    (s.job.FriendsCursor = 0 → r.store.job.FriendsCursor = 0) ∧
    (s.job.Remaining ≠ -1 → r.store.job.Remaining ≠ -1) ∧
    (s.job.PrepareGraph = true → r.store.job.Node.Done = true ∧
      r.store.job.PrepareGraph = false) := by
  obtain ⟨hnodup, hcons, hphase⟩ := hInv
  by_cases h1 : s.job.Node.Done = true
  · rw [runTick_done_branch api s s.job h1] at hrun
    simp at hrun
  have h1f : s.job.Node.Done = false := by simpa using h1
  by_cases h2 : s.job.PrepareGraph = true
  · rw [runTick_prepare_branch api s s.job h1f h2] at hrun
    injection hrun with hr
    subst hr
    exact ⟨⟨hnodup, hcons, hphase⟩, fun h => h, fun h => h, fun h => h,
      fun _ => ⟨rfl, rfl⟩⟩
  have h2f : s.job.PrepareGraph = false := by simpa using h2
  have h2T : ¬s.job.PrepareGraph = true := h2
  by_cases h3 : s.job.FollowersCursor = 0
  · by_cases h4 : s.job.FriendsCursor = 0
    · by_cases h5 : s.job.Remaining = -1
      · -- counting branch
        rw [runTick_counting_branch api s s.job h1f h2f h3 h4 h5] at hrun
        injection hrun with hr
        subst hr
        rw [if_pos h5] at hphase
        have hcd : countDistinct s.job.Node.FriendIDs s.job.Node.FollowerIDs =
            countUnhydrated s.children := by
          unfold countDistinct
          rw [← hphase.1, List.toFinset_card_of_nodup hnodup,
            countUnhydrated_eq_length _ hphase.2]
          exact List.length_map s.children _
        have hne : (countDistinct s.job.Node.FriendIDs s.job.Node.FollowerIDs : Int) ≠ -1 := by
          omega
        refine ⟨⟨hnodup, hcons, ?_⟩, fun h => h, fun h => h, fun h => absurd h5 h,
          fun hpg => absurd hpg h2T⟩
        unfold Inv at *
        dsimp only
        rw [if_neg hne]
        exact ⟨by rw [hcd], h3, h4⟩
      · -- hydration branch
        rw [if_neg h5] at hphase
        obtain ⟨heq, hfc, hfr⟩ := hphase
        cases hfu : firstUnhydrated s.children with
        | none =>
          rw [runTick_hydration_none_branch api s s.job h1f h2f h3 h4 h5 hfu] at hrun
          injection hrun with hr
          subst hr
          have hzero : countUnhydrated s.children = 0 :=
            countUnhydrated_eq_zero_of_none _ hfu
          refine ⟨⟨hnodup, hcons, ?_⟩, fun h => h, fun h => h,
            fun _ => (by decide : ¬((0 : Int) = -1)),
            fun hpg => absurd hpg h2T⟩
          dsimp only
          rw [if_neg (by decide : ¬((0 : Int) = -1))]
          refine ⟨?_, hfc, hfr⟩
          rw [hzero]
          rfl
        | some fh =>
          cases hu : getTwitterUser (api.lookupUser fh.Node.TwitterID) fh.Node.TwitterID with
          | error e =>
            rw [runTick_hydration_error_branch api s s.job fh e h1f h2f h3 h4 h5 hfu hu]
              at hrun
            simp at hrun
          | ok u =>
            rw [runTick_hydration_some_branch api s s.job fh u h1f h2f h3 h4 h5 hfu hu]
              at hrun
            injection hrun with hr
            subst hr
            have hfind : ∃ p0, s.children.find? (fun p => p.2.Node.Done = false) = some p0 ∧
                p0.2 = fh := by
              unfold firstUnhydrated at hfu
              cases hf2 : s.children.find? (fun p => p.2.Node.Done = false) with
              | none =>
                rw [hf2] at hfu
                simp at hfu
              | some p0 =>
                rw [hf2] at hfu
                refine ⟨p0, rfl, ?_⟩
                simpa using hfu
            obtain ⟨p0, hp0find, hp0eq⟩ := hfind
            have hpos := countUnhydrated_pos_of_find s.children p0 hp0find
            have hdec := countUnhydrated_setChild_hydrated s.children hnodup hcons p0 hp0find
              { fh with Node := hydrateNode u (childExpandedNode api fh u) } rfl
            rw [hp0eq] at hdec
            have hRne : s.job.Remaining - 1 ≠ -1 := by
              omega
            have hR : s.job.Remaining - 1 = (countUnhydrated (setChild s.children
                fh.Node.TwitterID
                { fh with Node := hydrateNode u (childExpandedNode api fh u) }) : Int) := by
              omega
            refine ⟨⟨?_, ?_, ?_⟩, fun h => h, fun h => h, fun _ => hRne,
              fun hpg => absurd hpg h2T⟩
            · exact nodup_keysOf_setChild _ _ _ hnodup
            · exact keysConsistent_setChild _ _ _ (childExpandedNode_TwitterID api fh u) hcons
            · dsimp only
              rw [if_neg hRne]
              exact ⟨hR, hfc, hfr⟩
    · -- friends paging branch
      rw [runTick_friends_branch api s s.job h1f h2f h3 h4] at hrun
      injection hrun with hr
      subst hr
      by_cases hrem : s.job.Remaining = -1
      · rw [if_pos hrem] at hphase
        refine ⟨⟨?_, ?_, ?_⟩, fun h => h, fun h => absurd h h4, fun h => absurd hrem h,
          fun hpg => absurd hpg h2T⟩
        · exact nodup_keysOf_newFetchedHandles _ _ _ _ hnodup
        · exact keysConsistent_newFetchedHandles _ _ _ _ hcons
        · dsimp only
          rw [if_pos hrem]
          constructor
          · rw [toFinset_keysOf_newFetchedHandles, hphase.1]
            ext a
            simp [List.mem_toFinset, List.mem_append]
            tauto
          · exact allUnhydrated_newFetchedHandles _ _ _ _ hphase.2
      · rw [if_neg hrem] at hphase
        exact absurd hphase.2.2 h4
  · -- followers paging branch
    rw [runTick_followers_branch api s s.job h1f h2f h3] at hrun
    injection hrun with hr
    subst hr
    by_cases hrem : s.job.Remaining = -1
    · rw [if_pos hrem] at hphase
      refine ⟨⟨?_, ?_, ?_⟩, fun h => absurd h h3, fun h => h, fun h => absurd hrem h,
        fun hpg => absurd hpg h2T⟩
      · exact nodup_keysOf_newFetchedHandles _ _ _ _ hnodup
      · exact keysConsistent_newFetchedHandles _ _ _ _ hcons
      · dsimp only
        rw [if_pos hrem]
        constructor
        · rw [toFinset_keysOf_newFetchedHandles, hphase.1]
          ext a
          simp [List.mem_toFinset, List.mem_append]
        · exact allUnhydrated_newFetchedHandles _ _ _ _ hphase.2
    · rw [if_neg hrem] at hphase
      exact absurd hphase.2.1 h3

/-- C1 (counterexample): in the end-to-end scenario (root with 2 followers
and 0 friends), six ticks do not produce the claimed six-message sequence:
the second tick is a friends-paging tick returning "Fetched 0 friend IDs"
(the friends cursor also starts at -1), so after six ticks the Job has only
reached the prepare-output flip and is not yet done. -/
theorem c1_six_tick_counterexample :
    (runTicks apiC1 6 storeC1).1 =
      ["Fetched 2 follower IDs", "Fetched 0 friend IDs", "Enqueued 2 handles",
       "Fetched u2", "Fetched u3", "Preparing graph"] ∧
    (runTicks apiC1 6 storeC1).2.job.Node.Done = false := by
  constructor
  · rfl
  · rfl

/-- C1 (amended): the scenario takes exactly seven ticks: followers page
(2 ChildTasks, followers cursor to 0), friends page fetching 0 friend IDs
(friends cursor to 0), counting (remaining = 2), one hydration tick per
child, prepare-output, and build-graph marking the Job done, with the seven
status messages in exactly this order. -/
theorem c1_seven_tick_sequence :
    (runTicks apiC1 7 storeC1).1 =
      ["Fetched 2 follower IDs", "Fetched 0 friend IDs", "Enqueued 2 handles",
       "Fetched u2", "Fetched u3", "Preparing graph", "Graph built"] ∧
    (runTicks apiC1 1 storeC1).2.children.length = 2 ∧
    (runTicks apiC1 1 storeC1).2.job.FollowersCursor = 0 ∧
    (runTicks apiC1 2 storeC1).2.job.FriendsCursor = 0 ∧
    (runTicks apiC1 3 storeC1).2.job.Remaining = 2 ∧
    (runTicks apiC1 6 storeC1).2.job.PrepareGraph = true ∧
    (runTicks apiC1 7 storeC1).2.job.Node.Done = true := by
  refine ⟨rfl, rfl, rfl, rfl, rfl, rfl, rfl⟩

set_option maxRecDepth 8000 in
/-- C2: the six branches of the priority-ordered state machine are total
and mutually exclusive — exactly one fires per tick — and a freshly loaded
tick never regresses a Job through the phases: the invariant of reachable
stores holds at enqueue and is preserved by every successful tick, an
exhausted followers or friends cursor never becomes nonzero again, a
computed Remaining never returns to -1, the prepare-output flag resolves
into the done flag, and a done Job only ever produces the already-done
rejection. -/
theorem c2_phase_machine (api : TwitterAPI) (s : JobStore) :
    (∀ h : RootHandle, ∃! b : TickBranch, firesAt h b) ∧
    (∀ (userID : String) (u : TwitterUser),
      Inv { job := initialRootHandle userID u, children := [] }) ∧
    (∀ r : TickOk, Inv s → runTick api s s.job = .ok r →
      Inv r.store ∧
      (s.job.FollowersCursor = 0 → r.store.job.FollowersCursor = 0) ∧
      (s.job.FriendsCursor = 0 → r.store.job.FriendsCursor = 0) ∧
      (s.job.Remaining ≠ -1 → r.store.job.Remaining ≠ -1) ∧
      (s.job.PrepareGraph = true → r.store.job.Node.Done = true ∧
        r.store.job.PrepareGraph = false)) ∧
    (s.job.Node.Done = true →
      runTick api s s.job = .error (.alreadyDone s.job.Node.TwitterID)) := by
  refine ⟨?_, ?_, ?_, ?_⟩
  · intro h
    exact ⟨branchOf h, firesAt_branchOf h, fun b hb => firesAt_unique h b hb⟩
  · intro userID u
    unfold Inv
    refine ⟨List.nodup_nil, fun p hp => absurd hp (List.not_mem_nil p), ?_⟩
    have hc : ({ job := initialRootHandle userID u, children := [] } : JobStore).job.Remaining
        = -1 := rfl
    rw [if_pos hc]
    exact ⟨rfl, fun p hp => absurd hp (List.not_mem_nil p)⟩
  · intro r hInv hrun
    exact runTick_step_facts api s r hInv hrun
  · intro h1
    exact runTick_done_branch api s s.job h1

/-- C2 witness: the store of a fresh enqueue satisfies the invariant, and a
tick on a done Job is rejected with the already-done error. -/
theorem c2_phase_machine_witness :
    Inv { job := initialRootHandle "o" rootUserC1, children := [] } ∧
    runTick apiNone storeDoneC2 storeDoneC2.job =
      .error (.alreadyDone storeDoneC2.job.Node.TwitterID) :=
  ⟨(c2_phase_machine apiNone storeDoneC2).2.1 "o" rootUserC1,
   (c2_phase_machine apiNone storeDoneC2).2.2.2 rfl⟩

/-- C3 (code bug): when the Driver's selection yields no Job in the
all-users mode, or the sole selected Job is already done, it answers
"User done" with no store writes and no tick; but in the ownerId-only mode
with no not-done Job for the owner, workerHandler appends the nil pointer
returned by getUnfinishedRootHandle to rootHandles without a nil check and
then dereferences it in rootHandles[0].Node.Done, so the invocation panics
instead of reporting the nothing-to-do message. -/
theorem c3_driver_no_work :
    workerCore apiNone sysC3 (Address.byOwner "alice") = DriverResult.panicked ∧
    workerCore apiNone sysDoneC3 (Address.byOwner "alice") = DriverResult.panicked ∧
    workerCore apiNone sysC3 Address.all = DriverResult.output sysC3 ["User done"] ∧
    workerCore apiNone sysDoneC3 Address.all =
      DriverResult.output sysDoneC3 ["User done"] ∧
    workerCore apiNone sysDoneC3 (Address.exactly "alice" "1") =
      DriverResult.output sysDoneC3 ["User done"] := by
  refine ⟨rfl, rfl, rfl, rfl, rfl⟩

/-- C4: for the root with friend IDs [2,3] and follower IDs [3] and the
hydrated children 2 and 3 (no node for ID 4), the exported edge set is
exactly root→2, root→3, 3→root, no edge mentions ID 4, and in general every
ordered (source, target) pair occurs at most once in the output. -/
theorem c4_edge_set :
    (buildEdgeList nodeC4root [nodeC4child2, nodeC4child3]).toFinset =
      {("1", "2"), ("1", "3"), ("3", "1")} ∧
    (buildEdgeList nodeC4root [nodeC4child2, nodeC4child3]).filter
      (fun e => e.1 = "4" ∨ e.2 = "4") = [] ∧
    (∀ (root : GephiNode) (nodes : List GephiNode),
      (buildEdgeList root nodes).Nodup) := by
  refine ⟨by decide, by decide, buildEdgeList_nodup⟩

/-- C5: both at hydration time (`hydrateHandle`) and at enqueue time
(`newRootHandle`), a description longer than 500 characters is stored
truncated to exactly its first 500 characters, and a description of at
most 500 characters is stored unchanged. -/
theorem c5_description_truncation (u : TwitterUser) (n : GephiNode) (userID : String) :
    (u.Description.length > 500 →
      (hydrateNode u n).Description = u.Description.take 500 ∧
      (hydrateNode u n).Description.length = 500 ∧
      (initialRootHandle userID u).Node.Description = u.Description.take 500 ∧
      (initialRootHandle userID u).Node.Description.length = 500) ∧
    (u.Description.length ≤ 500 →
      (hydrateNode u n).Description = u.Description ∧
      (initialRootHandle userID u).Node.Description = u.Description) := by
  have htr : ∀ s : List Char, s.length > 500 → truncate500 s = s.take 500 := by
    intro s hs
    simp [truncate500, hs]
  have hlen : ∀ s : List Char, s.length > 500 → (truncate500 s).length = 500 := by
    intro s hs
    rw [htr s hs, List.length_take]
    omega
  have hid : ∀ s : List Char, s.length ≤ 500 → truncate500 s = s := by
    intro s hs
    rw [truncate500, if_neg (by omega)]
  constructor
  · intro h
    exact ⟨htr _ h, hlen _ h, htr _ h, hlen _ h⟩
  · intro h
    exact ⟨hid _ h, hid _ h⟩

set_option maxRecDepth 8000 in
/-- C5 witness: a 501-character description is stored as exactly its first
500 characters in both places. -/
theorem c5_description_truncation_witness :
    (hydrateNode userC5 nodeC4root).Description = userC5.Description.take 500 ∧
    (hydrateNode userC5 nodeC4root).Description.length = 500 ∧
    (initialRootHandle "o" userC5).Node.Description = userC5.Description.take 500 ∧
    (initialRootHandle "o" userC5).Node.Description.length = 500 :=
  (c5_description_truncation userC5 nodeC4root "o").1 (by simp [userC5])

/-- C6: the counting tick stores as Remaining the number of distinct IDs
across the root's friend and follower lists; that count is the cardinality
of the union of the two ID sets, is invariant under reordering of either
input list, and the friend list [a,b,c] with the follower list [b,c,d]
yields 4. -/
theorem c6_counting_dedup (api : TwitterAPI) (s : JobStore)
    (h1 : s.job.Node.Done = false) (h2 : s.job.PrepareGraph = false)
    (h3 : s.job.FollowersCursor = 0) (h4 : s.job.FriendsCursor = 0)
    (h5 : s.job.Remaining = -1) :
    (∃ r, runTick api s s.job = .ok r ∧
      r.store.job.Remaining =
        (countDistinct s.job.Node.FriendIDs s.job.Node.FollowerIDs : Int) ∧
      r.msg = enqueuedMsg (countDistinct s.job.Node.FriendIDs s.job.Node.FollowerIDs)) ∧
    (∀ f g : List String, countDistinct f g = (f.toFinset ∪ g.toFinset).card) ∧
    (∀ f f' g g' : List String, f.Perm f' → g.Perm g' →
      countDistinct f g = countDistinct f' g') ∧
    countDistinct ["a", "b", "c"] ["b", "c", "d"] = 4 := by
  refine ⟨⟨_, runTick_counting_branch api s s.job h1 h2 h3 h4 h5, rfl, rfl⟩, ?_, ?_, by decide⟩
  · intro f g
    simp [countDistinct]
  · intro f f' g g' hf hg
    have hsame : (f ++ g).toFinset = (f' ++ g').toFinset := by
      ext a
      rw [List.mem_toFinset, List.mem_toFinset]
      exact (hf.append hg).mem_iff
    simp [countDistinct, hsame]

/-- C6 witness: the counting tick on a concrete Job with friend IDs [a,b,c]
and follower IDs [b,c,d] stores Remaining = 4. -/
theorem c6_counting_dedup_witness :
    ∃ r, runTick apiNone storeC6 storeC6.job = .ok r ∧
      r.store.job.Remaining =
        (countDistinct storeC6.job.Node.FriendIDs storeC6.job.Node.FollowerIDs : Int) ∧
      r.msg = enqueuedMsg (countDistinct storeC6.job.Node.FriendIDs storeC6.job.Node.FollowerIDs) :=
  (c6_counting_dedup apiNone storeC6 rfl rfl rfl rfl rfl).1

/-- C7: a child lookup failing with a permanent account error (first error
code 63, suspended, or 50, deleted) is converted into a synthetic profile
with zero friend and follower counts and the descriptive placeholder screen
name, so the hydration tick still succeeds; a lookup error that is not
permanent is propagated as the tick's failure. -/
theorem c7_permanent_account_error (api : TwitterAPI) (s : JobStore)
    (fh : FetchedHandle) (e : LookupErr)
    (h1 : s.job.Node.Done = false) (h2 : s.job.PrepareGraph = false)
    (h3 : s.job.FollowersCursor = 0) (h4 : s.job.FriendsCursor = 0)
    (h5 : s.job.Remaining ≠ -1)
    (hfind : firstUnhydrated s.children = some fh)
    (herr : api.lookupUser fh.Node.TwitterID = .error e) :
    (∀ d rest, e = .api { Errors := d :: rest } → d.Code = 63 ∨ d.Code = 50 →
      permanentErrorMessage e ≠ "" ∧
      getTwitterUser (api.lookupUser fh.Node.TwitterID) fh.Node.TwitterID =
        .ok { IDStr := fh.Node.TwitterID, ScreenName := permanentErrorMessage e,
              FriendsCount := 0, FollowersCount := 0, URL := "", Description := [],
              ProfileImageURL := "", ProfileImageURLHttps := "" } ∧
      (∃ r, runTick api s s.job = .ok r ∧
        r.msg = fetchedHandleMsg (permanentErrorMessage e))) ∧
    (permanentErrorMessage e = "" →
      runTick api s s.job = .error (.lookup e)) := by
  constructor
  · intro d rest he hcode
    subst he
    have hmsg : permanentErrorMessage (.api { Errors := d :: rest }) ≠ "" := by
      rcases hcode with h | h <;> simp [permanentErrorMessage, h]
    have hu : getTwitterUser (api.lookupUser fh.Node.TwitterID) fh.Node.TwitterID =
        .ok { IDStr := fh.Node.TwitterID
              ScreenName := permanentErrorMessage (.api { Errors := d :: rest })
              FriendsCount := 0, FollowersCount := 0, URL := "", Description := []
              ProfileImageURL := "", ProfileImageURLHttps := "" } := by
      rw [herr]
      simp [getTwitterUser, hmsg]
    exact ⟨hmsg, hu,
      ⟨_, runTick_hydration_some_branch api s s.job fh _ h1 h2 h3 h4 h5 hfind hu, rfl⟩⟩
  · intro hmsg
    have hu : getTwitterUser (api.lookupUser fh.Node.TwitterID) fh.Node.TwitterID =
        .error e := by
      rw [herr]
      simp [getTwitterUser, hmsg]
    exact runTick_hydration_error_branch api s s.job fh e h1 h2 h3 h4 h5 hfind hu

/-- C7 witness: hydrating child 7 whose account is suspended (error code
63) succeeds with the placeholder screen name SUSPENDED. -/
theorem c7_permanent_account_error_witness :
    ∃ r, runTick apiC7 storeC7 storeC7.job = .ok r ∧
      r.msg = fetchedHandleMsg (permanentErrorMessage
        (.api { Errors := [{ Code := 63, Message := "suspended" }] })) :=
  ((c7_permanent_account_error apiC7 storeC7 (blankFetched "1" "Follower" "7")
    (.api { Errors := [{ Code := 63, Message := "suspended" }] })
    rfl rfl rfl rfl (by decide) rfl rfl).1
    { Code := 63, Message := "suspended" } [] rfl (Or.inl rfl)).2.2

/-- C8: for a Job with exactly one unhydrated ChildTask, two hydration
ticks that both start from the same pre-tick Job snapshot (the store's
transaction contract serializes the two concurrent transactions, so one
commits first and the other re-reads its result) leave Remaining
decremented exactly once — 1, then 0, and still 0 after the second tick —
and the child hydrated exactly once: the second tick's fresh in-transaction
re-read finds no unhydrated child, writes no child document, and flips the
Job to the prepare-output phase instead of decrementing again. -/
theorem c8_hydration_single_flight (api : TwitterAPI) (s : JobStore)
    (p0 : String × FetchedHandle) (u : TwitterUser)
    (h1 : s.job.Node.Done = false) (h2 : s.job.PrepareGraph = false)
    (h3 : s.job.FollowersCursor = 0) (h4 : s.job.FriendsCursor = 0)
    (h5 : s.job.Remaining = 1)
    (hnodup : (keysOf s.children).Nodup) (hcons : keysConsistent s.children)
    (hfind : s.children.find? (fun p => p.2.Node.Done = false) = some p0)
    (hone : countUnhydrated s.children = 1)
    (hu : getTwitterUser (api.lookupUser p0.2.Node.TwitterID) p0.2.Node.TwitterID = .ok u) :
    ∃ r1 r2, runTick api s s.job = .ok r1 ∧ runTick api r1.store s.job = .ok r2 ∧
      r1.store.job.Remaining = 0 ∧
      countUnhydrated r1.store.children = 0 ∧
      r2.store.children = r1.store.children ∧
      r2.store.job.Remaining = 0 ∧
      r2.store.job.PrepareGraph = true ∧
      r2.msg = "Preparing graph" := by
  have h5ne : s.job.Remaining ≠ -1 := by
    rw [h5]
    decide
  have hfind1 : firstUnhydrated s.children = some p0.2 := by
    unfold firstUnhydrated
    rw [hfind]
    rfl
  have hrun1 := runTick_hydration_some_branch api s s.job p0.2 u h1 h2 h3 h4 h5ne hfind1 hu
  have hcount0 : countUnhydrated (setChild s.children p0.2.Node.TwitterID
      { p0.2 with Node := hydrateNode u (childExpandedNode api p0.2 u) }) = 0 := by
    have hdec := countUnhydrated_setChild_hydrated s.children hnodup hcons p0 hfind
      { p0.2 with Node := hydrateNode u (childExpandedNode api p0.2 u) } rfl
    omega
  have hfind2 : firstUnhydrated (setChild s.children p0.2.Node.TwitterID
      { p0.2 with Node := hydrateNode u (childExpandedNode api p0.2 u) }) = none :=
    firstUnhydrated_eq_none_of_count_zero _ hcount0
  refine ⟨_, _, hrun1, runTick_hydration_none_branch api _ s.job h1 h2 h3 h4 h5ne hfind2,
    ?_, hcount0, rfl, rfl, rfl, rfl⟩
  show s.job.Remaining - 1 = 0
  rw [h5]
  decide

/-- C8 witness: Remaining 1 with one unhydrated child 7 and a live lookup:
the first tick hydrates and reaches 0, the concurrent second tick leaves
the children untouched and flips prepare-output. -/
theorem c8_hydration_single_flight_witness :
    ∃ r1 r2, runTick apiC8 storeC7 storeC7.job = .ok r1 ∧
      runTick apiC8 r1.store storeC7.job = .ok r2 ∧
      r1.store.job.Remaining = 0 ∧
      countUnhydrated r1.store.children = 0 ∧
      r2.store.children = r1.store.children ∧
      r2.store.job.Remaining = 0 ∧
      r2.store.job.PrepareGraph = true ∧
      r2.msg = "Preparing graph" :=
  c8_hydration_single_flight apiC8 storeC7 ("7", blankFetched "1" "Follower" "7")
    (childUser "7" "u7") rfl rfl rfl rfl rfl (by decide)
    (by unfold keysConsistent; decide) rfl rfl rfl

/-- C9: re-enqueueing a root whose (ownerId, rootId) Job document already
exists fails the create-not-overwrite write and leaves the whole store —
the pre-existing Job and all of its ChildTasks — unchanged. -/
theorem c9_reenqueue_fails (sys : SysStore) (userID : String) (u : TwitterUser)
    (js : JobStore) (hmem : js ∈ sys.jobs) (hkey : jobKey js = (userID, u.IDStr)) :
    (newRootHandleSys sys userID u).2 = false ∧
    (newRootHandleSys sys userID u).1 = sys := by
  have hany : sys.jobs.any (fun j => jobKey j = (userID, u.IDStr)) = true := by
    simp only [List.any_eq_true]
    exact ⟨js, hmem, by simp [hkey]⟩
  simp [newRootHandleSys, hany]

/-- C10: ChildTasks are keyed by the child's external ID, so an account
appearing in both the follower and the friend pages yields exactly one
ChildTask record whose relationship tag ends up Friend (the friends batch
runs after the followers batch, since followers paging precedes friends
paging in the branch priority, and its whole-document write wins); the
collection size equals the deduplicated remaining count and every record
starts unhydrated. -/
theorem c10_child_dedup (parentID : String) (followerIDs friendIDs : List String)
    (id : String) (hfo : id ∈ followerIDs) (hfr : id ∈ friendIDs) :
    lookupChild (bothPagesChildren parentID followerIDs friendIDs) id =
      some (blankFetched parentID "Friend" id) ∧
    (keysOf (bothPagesChildren parentID followerIDs friendIDs)).count id = 1 ∧
    (bothPagesChildren parentID followerIDs friendIDs).length =
      countDistinct friendIDs followerIDs ∧
    countUnhydrated (bothPagesChildren parentID followerIDs friendIDs) =
      (bothPagesChildren parentID followerIDs friendIDs).length ∧
    (∀ h : RootHandle, h.Node.Done = false → h.PrepareGraph = false →
      h.FollowersCursor ≠ 0 → branchOf h = .pagingFollowers) := by
  have hnodup : (keysOf (bothPagesChildren parentID followerIDs friendIDs)).Nodup :=
    nodup_keysOf_newFetchedHandles _ _ _ _
      (nodup_keysOf_newFetchedHandles _ _ _ _ (by simp [keysOf]))
  have hfin : (keysOf (bothPagesChildren parentID followerIDs friendIDs)).toFinset =
      followerIDs.toFinset ∪ friendIDs.toFinset := by
    unfold bothPagesChildren
    rw [toFinset_keysOf_newFetchedHandles, toFinset_keysOf_newFetchedHandles]
    simp [keysOf]
  refine ⟨?_, ?_, ?_, ?_, ?_⟩
  · exact lookupChild_newFetchedHandles_mem _ _ _ _ _ hfr
  · refine List.count_eq_one_of_mem hnodup ?_
    rw [← List.mem_toFinset, hfin]
    simp [List.mem_toFinset, hfo]
  · have hlen : (bothPagesChildren parentID followerIDs friendIDs).length =
        (keysOf (bothPagesChildren parentID followerIDs friendIDs)).length := by
      simp [keysOf]
    rw [hlen, ← List.toFinset_card_of_nodup hnodup, hfin]
    unfold countDistinct
    rw [List.toFinset_append]
    congr 1
    exact Finset.union_comm _ _
  · refine countUnhydrated_eq_length _ (allUnhydrated_newFetchedHandles _ _ _ _
      (allUnhydrated_newFetchedHandles _ _ _ _ ?_))
    intro p hp
    exact absurd hp (List.not_mem_nil p)
  · intro h hdone hpg hfc
    simp [branchOf, hdone, hpg, hfc]

/-- C10 witness: with follower page [2,3] and friend page [3], child 3 is a
single Friend-tagged record, the collection has 2 unhydrated records, and
the followers branch outranks the friends branch. -/
theorem c10_child_dedup_witness :
    lookupChild (bothPagesChildren "1" ["2", "3"] ["3"]) "3" =
      some (blankFetched "1" "Friend" "3") ∧
    (keysOf (bothPagesChildren "1" ["2", "3"] ["3"])).count "3" = 1 ∧
    (bothPagesChildren "1" ["2", "3"] ["3"]).length = countDistinct ["3"] ["2", "3"] ∧
    countUnhydrated (bothPagesChildren "1" ["2", "3"] ["3"]) =
      (bothPagesChildren "1" ["2", "3"] ["3"]).length ∧
    (∀ h : RootHandle, h.Node.Done = false → h.PrepareGraph = false →
      h.FollowersCursor ≠ 0 → branchOf h = .pagingFollowers) :=
  c10_child_dedup "1" ["2", "3"] ["3"] "3" (by decide) (by decide)

/-- C9 witness: re-enqueueing root 1 for alice fails and leaves the store
with its Job and ChildTask untouched. -/
theorem c9_reenqueue_fails_witness :
    (newRootHandleSys sysC9 "alice" rootUserC1).2 = false ∧
    (newRootHandleSys sysC9 "alice" rootUserC1).1 = sysC9 :=
  c9_reenqueue_fails sysC9 "alice" rootUserC1
    { job := initialRootHandle "alice" rootUserC1
      children := [("7", blankFetched "1" "Follower" "7")] }
    (by decide) (by decide)

end Twitterweb
